import Mathlib

/-!
Verification of the session-scoped to-do synchronization pipeline of
datastar-go-blueprint: a shallow embedding of the todo service operations,
the persistence layer, the mutation handlers and the SSE stream loop,
together with theorems settling the specification claims.
-/

namespace Blueprint

/-- One to-do item: `Text` and `Completed` fields of `components.Todo`. -/
structure Todo where
  text : String
  completed : Bool
deriving DecidableEq, Repr

/-- View mode constant `TodoViewModeAll` (first value of the mode enum). -/
def TodoViewModeAll : Int := 0

/-- View mode constant `TodoViewModeCompleted` (last value of the mode enum). -/
def TodoViewModeCompleted : Int := 2

/-- In-memory session state `components.TodoMVC`: ordered items, view mode,
and the index of the item being edited (-1 for none). -/
structure TodoMVC where
  todos : List Todo
  mode : Int
  editingIdx : Int
deriving DecidableEq, Repr

/-- `TodoService.ToggleTodo`: negative index toggles all (any incomplete item
forces all to completed, otherwise all to incomplete); an in-range index
inverts that item's flag; an out-of-range non-negative index is a no-op. -/
def ToggleTodo (mvc : TodoMVC) (index : Int) : TodoMVC :=
  if index < 0 then
    let setCompletedTo := mvc.todos.any (fun todo => !todo.completed)
    { mvc with todos := mvc.todos.map (fun todo => { todo with completed := setCompletedTo }) }
  else if index < (mvc.todos.length : Int) then
    match mvc.todos.get? index.toNat with
    | some todo =>
        { mvc with todos := mvc.todos.set index.toNat { todo with completed := !todo.completed } }
    | none => mvc
  else mvc

/-- `TodoService.EditTodo`: an in-range index replaces that item's text, a
negative index appends a new incomplete item; `EditingIdx` always resets
to -1. -/
def EditTodo (mvc : TodoMVC) (index : Int) (text : String) : TodoMVC :=
  let mvc1 :=
    if 0 ≤ index ∧ index < (mvc.todos.length : Int) then
      match mvc.todos.get? index.toNat with
      | some todo =>
          { mvc with todos := mvc.todos.set index.toNat { todo with text := text } }
      | none => mvc
    else if index < 0 then
      { mvc with todos := mvc.todos ++ [{ text := text, completed := false }] }
    else mvc
  { mvc1 with editingIdx := -1 }

/-- `TodoService.DeleteTodo`: an in-range index removes that item (the Go
slice append of `Todos[:index]` and `Todos[index+1:]`); a negative index
keeps exactly the incomplete items. -/
def DeleteTodo (mvc : TodoMVC) (index : Int) : TodoMVC :=
  if 0 ≤ index ∧ index < (mvc.todos.length : Int) then
    { mvc with todos := mvc.todos.take index.toNat ++ mvc.todos.drop (index.toNat + 1) }
  else if index < 0 then
    { mvc with todos := mvc.todos.filter (fun todo => !todo.completed) }
  else mvc

/-- `TodoService.SetMode`. -/
def SetMode (mvc : TodoMVC) (mode : Int) : TodoMVC :=
  { mvc with mode := mode }

/-- `TodoService.StartEditing`. -/
def StartEditing (mvc : TodoMVC) (index : Int) : TodoMVC :=
  { mvc with editingIdx := index }

/-- `TodoService.CancelEditing`. -/
def CancelEditing (mvc : TodoMVC) : TodoMVC :=
  { mvc with editingIdx := -1 }

/-- The five default items written by `resetMVC`. -/
def defaultTodos : List Todo :=
  [ { text := "Learn any backend language", completed := true },
    { text := "Learn Datastar", completed := false },
    { text := "Create Hypermedia", completed := false },
    { text := "???", completed := false },
    { text := "Profit", completed := false } ]

/-- `TodoService.resetMVC`: mode to All, items to the default five, no edit
in progress. -/
def resetMVC (mvc : TodoMVC) : TodoMVC :=
  { mvc with mode := TodoViewModeAll, todos := defaultTodos, editingIdx := -1 }

/-- One persisted row of the `todos` table (the columns the service reads
and writes: `user_id`, `task`, `completed` stored as an integer 0/1; the
generated `id` and the timestamps play no role in the service logic). -/
structure TodoRow where
  userID : String
  task : String
  completed : Int
deriving DecidableEq, Repr

/-- One persisted row of the `sessions` table (the ui-state columns
`mode` and `editing_idx`). -/
structure SessionRow where
  id : String
  mode : Int
  editingIdx : Int
deriving DecidableEq, Repr

/-- The persisted state: the `todos` table (in insertion order) and the
`sessions` table. -/
structure DB where
  todos : List TodoRow
  sessions : List SessionRow
deriving DecidableEq, Repr

/-- Query `GetTodosByUser`: the rows whose `user_id` matches. The SQL
orders by `created_at DESC`; rows written in one batch share a timestamp,
so the model keeps the table order. -/
def GetTodosByUser (userID : String) (db : DB) : List TodoRow :=
  db.todos.filter (fun row => row.userID == userID)

/-- Query `DeleteAllTodosByUser`: drop every row of that user. -/
def DeleteAllTodosByUser (userID : String) (db : DB) : DB :=
  { db with todos := db.todos.filter (fun row => !(row.userID == userID)) }

/-- Query `CreateTodo`: insert one row. -/
def CreateTodo (row : TodoRow) (db : DB) : DB :=
  { db with todos := db.todos ++ [row] }

/-- Query `GetSession`: the session row with that id, if present. -/
def GetSession (sessionID : String) (db : DB) : Option SessionRow :=
  db.sessions.find? (fun s => s.id == sessionID)

/-- Query `UpsertSession`: `INSERT ... ON CONFLICT(id) DO UPDATE`. -/
def UpsertSession (row : SessionRow) (db : DB) : DB :=
  if db.sessions.any (fun s => s.id == row.id) then
    { db with sessions := db.sessions.map (fun s => if s.id == row.id then row else s) }
  else
    { db with sessions := db.sessions ++ [row] }

/-- Fault model for the statements one `saveMVCToDB` call issues in
sequence: whether the delete-all errors, whether the insert of the `i`-th
item errors, whether the session upsert errors. -/
structure SaveOracle where
  deleteFails : Bool
  insertFails : Nat → Bool
  upsertFails : Bool

/-- An oracle on which every statement succeeds. -/
def okOracle : SaveOracle :=
  { deleteFails := false, insertFails := fun _ => false, upsertFails := false }

/-- The row `saveMVCToDB` builds for one in-memory item. -/
def rowOfTodo (sessionID : String) (todo : Todo) : TodoRow :=
  { userID := sessionID, task := todo.text, completed := if todo.completed then 1 else 0 }

/-- The insert loop of `saveMVCToDB`: insert the items one by one, stopping
with the wrapped error at the first statement that fails. `i` counts the
statements already issued. -/
def insertTodos (o : SaveOracle) (sessionID : String) :
    List Todo → Nat → DB → Option String × DB
  | [], _, db => (none, db)
  | todo :: rest, i, db =>
    if o.insertFails i then (some "failed to create todo", db)
    else insertTodos o sessionID rest (i + 1) (CreateTodo (rowOfTodo sessionID todo) db)

/-- `TodoService.saveMVCToDB`: delete all rows of the session, re-insert
the supplied items, then upsert the ui-state row — three groups of
statements issued sequentially on the plain connection (the service passes
the request context straight through; no `WithinTransaction` wraps the
call and the repositories use the untransacted query handle). The first
failing statement aborts the sequence with an error; effects of the
statements already executed remain. -/
def saveMVCToDB (o : SaveOracle) (sessionID : String) (mvc : TodoMVC) (db : DB) :
    Option String × DB :=
  if o.deleteFails then (some "failed to delete existing todos", db)
  else
    match insertTodos o sessionID mvc.todos 0 (DeleteAllTodosByUser sessionID db) with
    | (some e, db2) => (some e, db2)
    | (none, db2) =>
      if o.upsertFails then (some "failed to save session state", db2)
      else (none, UpsertSession { id := sessionID, mode := mvc.mode, editingIdx := mvc.editingIdx } db2)

/-- `TodoService.GetMVCBySessionID`: read the session's rows and ui state;
when no items are persisted, seed the defaults via `resetMVC`, persist
them with `saveMVCToDB`, and return the seeded state (or the save's
error). Otherwise convert the rows. The pair's second component is the
persisted state after the call. -/
def GetMVCBySessionID (o : SaveOracle) (sessionID : String) (db : DB) :
    Except String TodoMVC × DB :=
  let dbTodos := GetTodosByUser sessionID db
  let mode := match GetSession sessionID db with
    | some s => s.mode
    | none => TodoViewModeAll
  let editingIdx := match GetSession sessionID db with
    | some s => s.editingIdx
    | none => -1
  if dbTodos.length = 0 then
    let mvc := resetMVC { todos := [], mode := mode, editingIdx := editingIdx }
    match saveMVCToDB o sessionID mvc db with
    | (some e, db1) => (.error ("failed to save default todos: " ++ e), db1)
    | (none, db1) => (.ok mvc, db1)
  else
    (.ok { todos := dbTodos.map (fun row => { text := row.task, completed := row.completed == (1 : Int) }),
           mode := mode, editingIdx := editingIdx }, db)

/-- `components.ToastSuccess`. -/
def ToastSuccess : String := "success"

/-- `pubsub.ToastData`. -/
structure ToastData where
  message : String
  toastType : String
deriving DecidableEq, Repr

/-- `pubsub.UpdateMessage`, the payload published over NATS. -/
structure UpdateMessage where
  refreshTodos : Bool
  toast : Option ToastData
deriving DecidableEq, Repr

/-- `pubsub.Notify` with `WithRefresh` only. -/
def refreshMessage : UpdateMessage :=
  { refreshTodos := true, toast := none }

/-- `pubsub.Notify` with `WithRefresh` and `WithToast msg ToastSuccess`. -/
def refreshToastMessage (msg : String) : UpdateMessage :=
  { refreshTodos := true, toast := some { message := msg, toastType := ToastSuccess } }

/-- What one mutation handler invocation produced: the HTTP status written,
how many times it called the load step (`GetSessionMVC`) and the persist
step (`SaveMVC`), the persist outcome (`none` when the persist step was
never reached, otherwise whether it succeeded), and the update events it
published to the relay. -/
structure HandlerResult where
  status : Nat
  loads : Nat
  saves : Nat
  persist : Option Bool
  published : List UpdateMessage
deriving DecidableEq, Repr

/-- Handler `ToggleTodo`: session, index param, load, toggle, persist,
notify refresh, 200. A failed step writes its error status and stops. -/
def ToggleTodoHandler (sessionOk : Bool) (idxParam : Option Int)
    (oLoad oSave : SaveOracle) (sessionID : String) (db : DB) : HandlerResult × DB :=
  if !sessionOk then (⟨500, 0, 0, none, []⟩, db)
  else match idxParam with
  | none => (⟨400, 0, 0, none, []⟩, db)
  | some idx =>
    match GetMVCBySessionID oLoad sessionID db with
    | (.error _, db1) => (⟨500, 1, 0, none, []⟩, db1)
    | (.ok mvc, db1) =>
      match saveMVCToDB oSave sessionID (ToggleTodo mvc idx) db1 with
      | (some _, db2) => (⟨500, 1, 1, some false, []⟩, db2)
      | (none, db2) => (⟨200, 1, 1, some true, [refreshMessage]⟩, db2)

/-- Handler `StartEdit`: session, index param, load, set `EditingIdx`,
persist, notify refresh, 200. -/
def StartEditHandler (sessionOk : Bool) (idxParam : Option Int)
    (oLoad oSave : SaveOracle) (sessionID : String) (db : DB) : HandlerResult × DB :=
  if !sessionOk then (⟨500, 0, 0, none, []⟩, db)
  else match idxParam with
  | none => (⟨400, 0, 0, none, []⟩, db)
  | some idx =>
    match GetMVCBySessionID oLoad sessionID db with
    | (.error _, db1) => (⟨500, 1, 0, none, []⟩, db1)
    | (.ok mvc, db1) =>
      match saveMVCToDB oSave sessionID (StartEditing mvc idx) db1 with
      | (some _, db2) => (⟨500, 1, 1, some false, []⟩, db2)
      | (none, db2) => (⟨200, 1, 1, some true, [refreshMessage]⟩, db2)

/-- Handler `SaveEdit`: read the `input` signal (malformed body is a 400,
an empty input returns silently), then session, index param, load, edit,
persist, notify refresh plus a created/updated toast, 200. -/
def SaveEditHandler (signals : Option String) (sessionOk : Bool) (idxParam : Option Int)
    (oLoad oSave : SaveOracle) (sessionID : String) (db : DB) : HandlerResult × DB :=
  match signals with
  | none => (⟨400, 0, 0, none, []⟩, db)
  | some input =>
    if input = "" then (⟨200, 0, 0, none, []⟩, db)
    else if !sessionOk then (⟨500, 0, 0, none, []⟩, db)
    else match idxParam with
    | none => (⟨400, 0, 0, none, []⟩, db)
    | some idx =>
      match GetMVCBySessionID oLoad sessionID db with
      | (.error _, db1) => (⟨500, 1, 0, none, []⟩, db1)
      | (.ok mvc, db1) =>
        match saveMVCToDB oSave sessionID (EditTodo mvc idx input) db1 with
        | (some _, db2) => (⟨500, 1, 1, some false, []⟩, db2)
        | (none, db2) =>
          let toastMsg := if idx < 0 then "Todo created" else "Todo updated"
          (⟨200, 1, 1, some true, [refreshToastMessage toastMsg]⟩, db2)

/-- Handler `DeleteTodo`: session, index param, load, delete, persist,
notify refresh plus a toast, 200. -/
def DeleteTodoHandler (sessionOk : Bool) (idxParam : Option Int)
    (oLoad oSave : SaveOracle) (sessionID : String) (db : DB) : HandlerResult × DB :=
  if !sessionOk then (⟨500, 0, 0, none, []⟩, db)
  else match idxParam with
  | none => (⟨400, 0, 0, none, []⟩, db)
  | some idx =>
    match GetMVCBySessionID oLoad sessionID db with
    | (.error _, db1) => (⟨500, 1, 0, none, []⟩, db1)
    | (.ok mvc, db1) =>
      match saveMVCToDB oSave sessionID (DeleteTodo mvc idx) db1 with
      | (some _, db2) => (⟨500, 1, 1, some false, []⟩, db2)
      | (none, db2) => (⟨200, 1, 1, some true, [refreshToastMessage "Todo deleted"]⟩, db2)

/-- Handler `ResetTodos`: session, load, reset to defaults, persist,
notify refresh plus a toast, 200. -/
def ResetTodosHandler (sessionOk : Bool)
    (oLoad oSave : SaveOracle) (sessionID : String) (db : DB) : HandlerResult × DB :=
  if !sessionOk then (⟨500, 0, 0, none, []⟩, db)
  else match GetMVCBySessionID oLoad sessionID db with
  | (.error _, db1) => (⟨500, 1, 0, none, []⟩, db1)
  | (.ok mvc, db1) =>
    match saveMVCToDB oSave sessionID (resetMVC mvc) db1 with
    | (some _, db2) => (⟨500, 1, 1, some false, []⟩, db2)
    | (none, db2) => (⟨200, 1, 1, some true, [refreshToastMessage "Todos reset"]⟩, db2)

/-- Handler `CancelEdit`: session, load, clear `EditingIdx`, persist,
notify refresh, 200. -/
def CancelEditHandler (sessionOk : Bool)
    (oLoad oSave : SaveOracle) (sessionID : String) (db : DB) : HandlerResult × DB :=
  if !sessionOk then (⟨500, 0, 0, none, []⟩, db)
  else match GetMVCBySessionID oLoad sessionID db with
  | (.error _, db1) => (⟨500, 1, 0, none, []⟩, db1)
  | (.ok mvc, db1) =>
    match saveMVCToDB oSave sessionID (CancelEditing mvc) db1 with
    | (some _, db2) => (⟨500, 1, 1, some false, []⟩, db2)
    | (none, db2) => (⟨200, 1, 1, some true, [refreshMessage]⟩, db2)

/-- Handler `SetMode`: session, parse the mode param (non-integer is a
400), range-check it against the mode enum (out of range is a 400), load,
set the mode, persist, notify refresh, 200. -/
def SetModeHandler (sessionOk : Bool) (modeParam : Option Int)
    (oLoad oSave : SaveOracle) (sessionID : String) (db : DB) : HandlerResult × DB :=
  if !sessionOk then (⟨500, 0, 0, none, []⟩, db)
  else match modeParam with
  | none => (⟨400, 0, 0, none, []⟩, db)
  | some mode =>
    if mode < TodoViewModeAll ∨ TodoViewModeCompleted < mode then
      (⟨400, 0, 0, none, []⟩, db)
    else match GetMVCBySessionID oLoad sessionID db with
    | (.error _, db1) => (⟨500, 1, 0, none, []⟩, db1)
    | (.ok mvc, db1) =>
      match saveMVCToDB oSave sessionID (SetMode mvc mode) db1 with
      | (some _, db2) => (⟨500, 1, 1, some false, []⟩, db2)
      | (none, db2) => (⟨200, 1, 1, some true, [refreshMessage]⟩, db2)

/-- One observable action of the `TodosUpdates` SSE loop on its
connection: a state re-read, a full-view push, a toast push (each push
tagged with whether the client write succeeded), or the console-error
notification sent through `LogConsoleError`. -/
inductive StreamAction
  | readState
  | pushView (ok : Bool)
  | pushToast (ok : Bool)
  | pushConsoleError
deriving DecidableEq, Repr

/-- One message arriving on the subscription channel, together with the
environment's outcome for each client write the loop would attempt for
it: whether the payload parses, the decoded flags, and whether the view
push and the toast push would succeed. -/
structure StreamEvent where
  parseOk : Bool
  refreshTodos : Bool
  hasToast : Bool
  refreshPushOk : Bool
  toastPushOk : Bool
deriving DecidableEq, Repr

/-- The `for/select` loop of `TodosUpdates`, as the trace of actions it
performs on a sequence of received messages. A parse failure is logged
and skipped. A requested refresh re-reads state and pushes the view; if
that push fails, the handler sends one console error and returns. A toast
is pushed after the refresh; a failed toast push is only logged and the
loop continues with the next message. -/
def streamLoop : List StreamEvent → List StreamAction
  | [] => []
  | e :: rest =>
    if !e.parseOk then streamLoop rest
    else if e.refreshTodos then
      if e.refreshPushOk then
        [.readState, .pushView true]
          ++ (if e.hasToast then [.pushToast e.toastPushOk] else [])
          ++ streamLoop rest
      else [.readState, .pushView false, .pushConsoleError]
    else
      (if e.hasToast then [.pushToast e.toastPushOk] else []) ++ streamLoop rest

/-- The `TodosUpdates` handler: resolve the session, push the initial
full state (a failure sends one console error and returns), subscribe (a
failure likewise), then run the loop. -/
def TodosUpdates (sessionOk initialPushOk subscribeOk : Bool)
    (events : List StreamEvent) : List StreamAction :=
  if !sessionOk then []
  else if !initialPushOk then [.readState, .pushView false, .pushConsoleError]
  else if !subscribeOk then [.readState, .pushView true, .pushConsoleError]
  else [.readState, .pushView true] ++ streamLoop events

/-- A three-item state with completed flags `[true, false, false]`. -/
def exToggle : TodoMVC :=
  { todos := [⟨"a", true⟩, ⟨"b", false⟩, ⟨"c", false⟩], mode := 0, editingIdx := -1 }

/-- C2: a toggle with a negative index sets every item to completed when
some item is incomplete, and to incomplete only when all items are
already completed; on flags `[true, false, false]` one application gives
all-true and a second gives all-false. -/
theorem toggle_all_policy (mvc : TodoMVC) (index : Int) (h : index < 0) :
    ((∃ t ∈ mvc.todos, t.completed = false) →
        ∀ t ∈ (ToggleTodo mvc index).todos, t.completed = true) ∧
    ((∀ t ∈ mvc.todos, t.completed = true) →
        ∀ t ∈ (ToggleTodo mvc index).todos, t.completed = false) ∧
    ((ToggleTodo exToggle index).todos.map Todo.completed = [true, true, true] ∧
      (ToggleTodo (ToggleTodo exToggle index) index).todos.map Todo.completed
        = [false, false, false]) := by
  refine ⟨?_, ?_, ?_, ?_⟩
  · intro hex t ht
    have hany : mvc.todos.any (fun todo => !todo.completed) = true := by
      obtain ⟨u, hu, hc⟩ := hex
      exact List.any_eq_true.2 ⟨u, hu, by simp [hc]⟩
    simp only [ToggleTodo, if_pos h] at ht
    obtain ⟨u, _, rfl⟩ := List.mem_map.1 ht
    simpa using hany
  · intro hall t ht
    have hany : mvc.todos.any (fun todo => !todo.completed) = false := by
      simp only [List.any_eq_false]
      intro u hu
      simp [hall u hu]
    simp only [ToggleTodo, if_pos h] at ht
    obtain ⟨u, _, rfl⟩ := List.mem_map.1 ht
    simpa using hany
  · simp [ToggleTodo, if_pos h, exToggle]
  · simp [ToggleTodo, if_pos h, exToggle]

/-- Closed instance of the toggle-all policy at flags `[true, false, false]`. -/
theorem toggle_all_policy_witness :
    (∀ t ∈ (ToggleTodo exToggle (-1)).todos, t.completed = true) ∧
    (ToggleTodo exToggle (-1)).todos.map Todo.completed = [true, true, true] ∧
    (ToggleTodo (ToggleTodo exToggle (-1)) (-1)).todos.map Todo.completed
      = [false, false, false] :=
  ⟨(toggle_all_policy exToggle (-1) (by decide)).1 ⟨⟨"b", false⟩, by decide, rfl⟩,
    (toggle_all_policy exToggle (-1) (by decide)).2.2⟩

/-- A three-item state with completed flags `[true, false, true]`. -/
def exDelete : TodoMVC :=
  { todos := [⟨"a", true⟩, ⟨"b", false⟩, ⟨"c", true⟩], mode := 0, editingIdx := -1 }

/-- C3: a delete with a negative index keeps exactly the incomplete items
in their original order (on flags `[true, false, true]` only the middle
item survives); a delete with an in-range index removes exactly that
item, shifting the later items down by one. -/
theorem delete_todo_policy (mvc : TodoMVC) (index : Int) :
    (index < 0 →
      (DeleteTodo mvc index).todos = mvc.todos.filter (fun t => decide (t.completed = false))) ∧
    (0 ≤ index → index < (mvc.todos.length : Int) →
      (DeleteTodo mvc index).todos.length + 1 = mvc.todos.length ∧
      (∀ j : Nat, j < index.toNat → (DeleteTodo mvc index).todos[j]? = mvc.todos[j]?) ∧
      (∀ j : Nat, index.toNat ≤ j → (DeleteTodo mvc index).todos[j]? = mvc.todos[j + 1]?)) ∧
    (DeleteTodo exDelete (-1)).todos = [⟨"b", false⟩] := by
  refine ⟨?_, ?_, by decide⟩
  · intro h
    have hnot : ¬ (0 ≤ index ∧ index < (mvc.todos.length : Int)) := by omega
    simp only [DeleteTodo, if_neg hnot, if_pos h]
    exact List.filter_congr (fun t _ => by cases t.completed <;> simp)
  · intro h0 hlt
    have hcond : 0 ≤ index ∧ index < (mvc.todos.length : Int) := ⟨h0, hlt⟩
    have hi : index.toNat < mvc.todos.length := by omega
    simp only [DeleteTodo, if_pos hcond]
    have herase : mvc.todos.take index.toNat ++ mvc.todos.drop (index.toNat + 1)
        = mvc.todos.eraseIdx index.toNat := (List.eraseIdx_eq_take_drop_succ _ _).symm
    refine ⟨?_, ?_, ?_⟩
    · simp only [herase]
      rw [List.length_eraseIdx_add_one hi]
    · intro j hj
      simp only [herase]
      exact List.getElem?_eraseIdx_of_lt _ _ _ hj
    · intro j hj
      simp only [herase]
      rw [List.getElem?_eraseIdx_of_ge _ _ _ hj]

/-- Closed instance of the delete policy: deleting index 1 from a
three-item list and deleting completed items. -/
theorem delete_todo_policy_witness :
    (DeleteTodo exDelete (-1)).todos = [⟨"b", false⟩] ∧
    (DeleteTodo exDelete 1).todos[1]? = exDelete.todos[2]? :=
  ⟨(delete_todo_policy exDelete (-1)).2.2,
    ((delete_todo_policy exDelete 1).2.1 (by decide) (by decide)).2.2 1 (by decide)⟩

/-- C4: an edit with an in-range index replaces exactly that item's text,
keeping its completed flag and every other item; an edit with a negative
index appends one new incomplete item; in both cases `EditingIdx` is
reset to -1. -/
theorem edit_todo_policy (mvc : TodoMVC) (index : Int) (text : String) :
    (0 ≤ index → index < (mvc.todos.length : Int) →
      ((EditTodo mvc index text).todos[index.toNat]?).map Todo.text = some text ∧
      ((EditTodo mvc index text).todos[index.toNat]?).map Todo.completed
        = (mvc.todos[index.toNat]?).map Todo.completed ∧
      (∀ j : Nat, j ≠ index.toNat → (EditTodo mvc index text).todos[j]? = mvc.todos[j]?)) ∧
    (index < 0 →
      (EditTodo mvc index text).todos = mvc.todos ++ [{ text := text, completed := false }]) ∧
    (EditTodo mvc index text).editingIdx = -1 := by
  refine ⟨?_, ?_, by simp [EditTodo]⟩
  · intro h0 hlt
    have hcond : 0 ≤ index ∧ index < (mvc.todos.length : Int) := ⟨h0, hlt⟩
    have hi : index.toNat < mvc.todos.length := by omega
    have hget : mvc.todos.get? index.toNat = some mvc.todos[index.toNat] := by
      rw [List.get?_eq_getElem?]
      exact List.getElem?_eq_getElem hi
    simp only [EditTodo, if_pos hcond, hget]
    refine ⟨?_, ?_, ?_⟩
    · simp [List.getElem?_set, hi]
    · simp [List.getElem?_set, hi, List.getElem?_eq_getElem hi]
    · intro j hj
      simp [List.getElem?_set_ne (by omega : index.toNat ≠ j)]
  · intro h
    have hcond : ¬ (0 ≤ index ∧ index < (mvc.todos.length : Int)) := by omega
    simp [EditTodo, if_neg hcond, if_pos h]

/-- Closed instance of the edit policy: an in-range edit rewrites the
text, and an append edit adds one incomplete item; both clear
`EditingIdx`. -/
theorem edit_todo_policy_witness :
    ((EditTodo ⟨[⟨"a", true⟩], 0, 5⟩ 0 "z").todos[(0 : Int).toNat]?).map Todo.text = some "z" ∧
    (EditTodo ⟨[⟨"a", true⟩], 0, 5⟩ (-1) "z").todos = [⟨"a", true⟩, ⟨"z", false⟩] ∧
    (EditTodo ⟨[⟨"a", true⟩], 0, 5⟩ (-1) "z").editingIdx = -1 :=
  ⟨((edit_todo_policy ⟨[⟨"a", true⟩], 0, 5⟩ 0 "z").1 (by decide) (by decide)).1,
    (edit_todo_policy ⟨[⟨"a", true⟩], 0, 5⟩ (-1) "z").2.1 (by decide),
    (edit_todo_policy ⟨[⟨"a", true⟩], 0, 5⟩ (-1) "z").2.2⟩

/-- C10: a non-negative index at or beyond the item count is accepted
without error; toggle and delete then change nothing at all, while edit
leaves the item list and mode unchanged but still resets `EditingIdx`
to -1. -/
theorem out_of_range_index_frame (mvc : TodoMVC) (index : Int) (text : String)
    (h : (mvc.todos.length : Int) ≤ index) :
    ToggleTodo mvc index = mvc ∧
    DeleteTodo mvc index = mvc ∧
    (EditTodo mvc index text).todos = mvc.todos ∧
    (EditTodo mvc index text).mode = mvc.mode ∧
    (EditTodo mvc index text).editingIdx = -1 := by
  have h0 : ¬ index < 0 := by omega
  have h1 : ¬ index < (mvc.todos.length : Int) := by omega
  have h2 : ¬ (0 ≤ index ∧ index < (mvc.todos.length : Int)) := by omega
  refine ⟨?_, ?_, ?_, ?_, ?_⟩ <;> simp [ToggleTodo, DeleteTodo, EditTodo, h0, h1, h2]

/-- Closed instance of the out-of-range frame property at index 7 on a
one-item list. -/
theorem out_of_range_index_frame_witness :
    ToggleTodo ⟨[⟨"a", false⟩], 1, 0⟩ 7 = ⟨[⟨"a", false⟩], 1, 0⟩ ∧
    DeleteTodo ⟨[⟨"a", false⟩], 1, 0⟩ 7 = ⟨[⟨"a", false⟩], 1, 0⟩ ∧
    (EditTodo ⟨[⟨"a", false⟩], 1, 0⟩ 7 "z").todos = [⟨"a", false⟩] ∧
    (EditTodo ⟨[⟨"a", false⟩], 1, 0⟩ 7 "z").editingIdx = -1 := by
  have h := out_of_range_index_frame ⟨[⟨"a", false⟩], 1, 0⟩ 7 "z" (by decide)
  exact ⟨h.1, h.2.1, h.2.2.1, h.2.2.2.2⟩

/-- The insert loop succeeds when no insert statement errors, and appends
the rows of the supplied items in order. -/
theorem insertTodos_of_no_failure (o : SaveOracle) (sessionID : String) :
    ∀ (todos : List Todo) (start : Nat) (db : DB),
      (∀ i, i < todos.length → o.insertFails (start + i) = false) →
      insertTodos o sessionID todos start db
        = (none, { db with todos := db.todos ++ todos.map (rowOfTodo sessionID) }) := by
  intro todos
  induction todos with
  | nil => intro start db _; simp [insertTodos]
  | cons t rest ih =>
    intro start db h
    have h0 : o.insertFails start = false := by simpa using h 0 (by simp)
    have hrest : ∀ i, i < rest.length → o.insertFails (start + 1 + i) = false := by
      intro i hi
      have := h (i + 1) (by simpa using Nat.succ_lt_succ hi)
      simpa [Nat.add_assoc, Nat.add_comm 1 i] using this
    simp only [insertTodos, h0, Bool.false_eq_true, if_false]
    rw [ih (start + 1) (CreateTodo (rowOfTodo sessionID t) db) hrest]
    simp [CreateTodo]

/-- A save on which an insert statement fails leaves the preceding
statements' effects in place: the items inserted before the failure
remain, after the delete-all already removed the session's old rows. -/
theorem insertTodos_first_statement_fails (o : SaveOracle) (sessionID : String) :
    ∀ (todos : List Todo) (start : Nat) (db : DB),
      o.insertFails start = true →
      todos ≠ [] →
      insertTodos o sessionID todos start db = (some "failed to create todo", db) := by
  intro todos start db hf hne
  cases todos with
  | nil => exact absurd rfl hne
  | cons t rest => simp [insertTodos, hf]

/-- A save on which no statement fails performs the full replace: the
session's rows become exactly the supplied items and the view-state row
is upserted. -/
theorem saveMVCToDB_of_no_failure (o : SaveOracle) (sessionID : String)
    (mvc : TodoMVC) (db : DB)
    (hd : o.deleteFails = false)
    (hins : ∀ i, i < mvc.todos.length → o.insertFails i = false)
    (hu : o.upsertFails = false) :
    saveMVCToDB o sessionID mvc db
      = (none,
          UpsertSession { id := sessionID, mode := mvc.mode, editingIdx := mvc.editingIdx }
            { todos := db.todos.filter (fun row => !(row.userID == sessionID))
                ++ mvc.todos.map (rowOfTodo sessionID),
              sessions := db.sessions }) := by
  simp only [saveMVCToDB, hd, Bool.false_eq_true, if_false]
  rw [insertTodos_of_no_failure o sessionID mvc.todos 0 (DeleteAllTodosByUser sessionID db)
    (by simpa using hins)]
  simp [hu, DeleteAllTodosByUser]

/-- C1 counterexample: with one persisted item for session `s`, saving a
one-item state whose session upsert fails returns an error, yet the
persisted state has changed (the old row is gone and the new row is in),
so the batch was not rolled back. -/
theorem save_rollback_counterexample :
    ((saveMVCToDB
        { deleteFails := false, insertFails := fun _ => false, upsertFails := true }
        "s" { todos := [⟨"new", false⟩], mode := 0, editingIdx := -1 }
        { todos := [⟨"s", "old", 0⟩], sessions := [] }).1.isSome = true) ∧
    (saveMVCToDB
        { deleteFails := false, insertFails := fun _ => false, upsertFails := true }
        "s" { todos := [⟨"new", false⟩], mode := 0, editingIdx := -1 }
        { todos := [⟨"s", "old", 0⟩], sessions := [] }).2
      ≠ { todos := [⟨"s", "old", 0⟩], sessions := [] } := by
  constructor
  · rfl
  · decide

/-- C1 amended: `saveMVCToDB` issues the delete, the inserts and the
upsert sequentially with no enclosing transaction. When every statement
succeeds it is a full replace (the session's rows become exactly the
supplied items, and the view-state row is upserted); when a statement
fails, that error is surfaced and the remaining statements are skipped,
but the effects of the statements already executed persist. -/
theorem saveMVCToDB_sequential_effects (o : SaveOracle) (sessionID : String)
    (mvc : TodoMVC) (db : DB) :
    (o.deleteFails = false → (∀ i, i < mvc.todos.length → o.insertFails i = false) →
      o.upsertFails = false →
      saveMVCToDB o sessionID mvc db
        = (none,
            UpsertSession { id := sessionID, mode := mvc.mode, editingIdx := mvc.editingIdx }
              { todos := db.todos.filter (fun row => !(row.userID == sessionID))
                  ++ mvc.todos.map (rowOfTodo sessionID),
                sessions := db.sessions })) ∧
    (o.deleteFails = true →
      saveMVCToDB o sessionID mvc db = (some "failed to delete existing todos", db)) ∧
    (o.deleteFails = false → o.insertFails 0 = true → mvc.todos ≠ [] →
      saveMVCToDB o sessionID mvc db
        = (some "failed to create todo", DeleteAllTodosByUser sessionID db)) := by
  refine ⟨?_, ?_, ?_⟩
  · intro hd hins hu
    exact saveMVCToDB_of_no_failure o sessionID mvc db hd hins hu
  · intro hd
    simp [saveMVCToDB, hd]
  · intro hd hf hne
    simp only [saveMVCToDB, hd, Bool.false_eq_true, if_false]
    rw [insertTodos_first_statement_fails o sessionID mvc.todos 0
      (DeleteAllTodosByUser sessionID db) hf hne]

/-- Closed instance of the amended save behavior: an all-ok save fully
replaces the session's rows, and an insert failure surfaces an error
with the delete already applied. -/
theorem saveMVCToDB_sequential_effects_witness :
    saveMVCToDB okOracle "s" { todos := [⟨"new", false⟩], mode := 1, editingIdx := -1 }
        { todos := [⟨"s", "old", 0⟩, ⟨"t", "other", 1⟩], sessions := [] }
      = (none,
          { todos := [⟨"t", "other", 1⟩, ⟨"s", "new", 0⟩],
            sessions := [⟨"s", 1, -1⟩] }) ∧
    saveMVCToDB { deleteFails := false, insertFails := fun _ => true, upsertFails := false }
        "s" { todos := [⟨"new", false⟩], mode := 1, editingIdx := -1 }
        { todos := [⟨"s", "old", 0⟩], sessions := [] }
      = (some "failed to create todo", { todos := [], sessions := [] }) := by
  constructor
  · have h := (saveMVCToDB_sequential_effects okOracle "s"
      { todos := [⟨"new", false⟩], mode := 1, editingIdx := -1 }
      { todos := [⟨"s", "old", 0⟩, ⟨"t", "other", 1⟩], sessions := [] }).1
      rfl (fun _ _ => rfl) rfl
    rw [h]
    decide
  · have h := (saveMVCToDB_sequential_effects
      { deleteFails := false, insertFails := fun _ => true, upsertFails := false }
      "s" { todos := [⟨"new", false⟩], mode := 1, editingIdx := -1 }
      { todos := [⟨"s", "old", 0⟩], sessions := [] }).2.2
      rfl rfl (by decide)
    rw [h]
    decide

/-- `UpsertSession` never changes the todos table. -/
theorem UpsertSession_todos (row : SessionRow) (db : DB) :
    (UpsertSession row db).todos = db.todos := by
  simp only [UpsertSession]
  split <;> rfl

/-- C6: loading a session with no persisted items seeds exactly the five
default items (the first completed, the other four incomplete), persists
them, and returns them, so a fresh session's first load never returns an
empty item list. -/
theorem first_load_seeds_defaults (o : SaveOracle) (sessionID : String) (db : DB)
    (hempty : GetTodosByUser sessionID db = [])
    (hd : o.deleteFails = false)
    (hins : ∀ i, i < 5 → o.insertFails i = false)
    (hu : o.upsertFails = false) :
    (GetMVCBySessionID o sessionID db).1
      = .ok { todos := defaultTodos, mode := TodoViewModeAll, editingIdx := -1 } ∧
    GetTodosByUser sessionID (GetMVCBySessionID o sessionID db).2
      = defaultTodos.map (rowOfTodo sessionID) ∧
    defaultTodos.length = 5 ∧
    defaultTodos.map Todo.completed = [true, false, false, false, false] ∧
    ∀ mvc, (GetMVCBySessionID o sessionID db).1 = .ok mvc → mvc.todos ≠ [] := by
  have hsave := saveMVCToDB_of_no_failure o sessionID
    { todos := defaultTodos, mode := TodoViewModeAll, editingIdx := -1 } db hd
    (fun i hi => hins i (by simpa [defaultTodos] using hi)) hu
  have hres : GetMVCBySessionID o sessionID db
      = (.ok { todos := defaultTodos, mode := TodoViewModeAll, editingIdx := -1 },
          UpsertSession { id := sessionID, mode := TodoViewModeAll, editingIdx := -1 }
            { todos := db.todos.filter (fun row => !(row.userID == sessionID))
                ++ defaultTodos.map (rowOfTodo sessionID),
              sessions := db.sessions }) := by
    simp only [GetMVCBySessionID, hempty, List.length_nil, if_pos rfl, resetMVC]
    rw [hsave]
    simp
  refine ⟨by rw [hres], ?_, by decide, by decide, ?_⟩
  · rw [hres]
    simp only [GetTodosByUser, UpsertSession_todos, List.filter_append]
    have hleft : (db.todos.filter (fun row => !(row.userID == sessionID))).filter
        (fun row => row.userID == sessionID) = [] := by
      simp [List.filter_filter]
    have hright : (defaultTodos.map (rowOfTodo sessionID)).filter
        (fun row => row.userID == sessionID) = defaultTodos.map (rowOfTodo sessionID) := by
      refine List.filter_eq_self.2 ?_
      intro r hr
      obtain ⟨t, _, rfl⟩ := List.mem_map.1 hr
      simp [rowOfTodo]
    rw [hleft, hright, List.nil_append]
  · intro mvc hmvc
    rw [hres] at hmvc
    simp only [Except.ok.injEq] at hmvc
    rw [← hmvc]
    simp [defaultTodos]

/-- Closed instance of the seeding behavior on a completely empty
database. -/
theorem first_load_seeds_defaults_witness :
    (GetMVCBySessionID okOracle "s" { todos := [], sessions := [] }).1
      = .ok { todos := defaultTodos, mode := TodoViewModeAll, editingIdx := -1 } ∧
    GetTodosByUser "s" (GetMVCBySessionID okOracle "s" { todos := [], sessions := [] }).2
      = defaultTodos.map (rowOfTodo "s") := by
  have h := first_load_seeds_defaults okOracle "s" { todos := [], sessions := [] }
    rfl rfl (fun _ _ => rfl) rfl
  exact ⟨h.1, h.2.1⟩

/-- The error-handling contract of a mutation handler: a failed persist
step yields a 500 response and publishes nothing, and anything published
presupposes a successful persist. -/
def surfacesPersistFailure (r : HandlerResult) : Prop :=
  (r.persist = some false → r.status = 500 ∧ r.published = []) ∧
  (r.published ≠ [] → r.persist = some true)

/-- C5: every mutation handler that hits a persist error surfaces it as
its own HTTP error response and publishes no update event; an update
event is published only after the persist step succeeded. -/
theorem no_publish_on_persist_failure
    (sessionOk : Bool) (idxParam modeParam : Option Int) (signals : Option String)
    (oLoad oSave : SaveOracle) (sessionID : String) (db : DB) :
    surfacesPersistFailure (ToggleTodoHandler sessionOk idxParam oLoad oSave sessionID db).1 ∧
    surfacesPersistFailure (StartEditHandler sessionOk idxParam oLoad oSave sessionID db).1 ∧
    surfacesPersistFailure (SaveEditHandler signals sessionOk idxParam oLoad oSave sessionID db).1 ∧
    surfacesPersistFailure (DeleteTodoHandler sessionOk idxParam oLoad oSave sessionID db).1 ∧
    surfacesPersistFailure (ResetTodosHandler sessionOk oLoad oSave sessionID db).1 ∧
    surfacesPersistFailure (CancelEditHandler sessionOk oLoad oSave sessionID db).1 ∧
    surfacesPersistFailure (SetModeHandler sessionOk modeParam oLoad oSave sessionID db).1 := by
  refine ⟨?_, ?_, ?_, ?_, ?_, ?_, ?_⟩
  · unfold ToggleTodoHandler
    repeat' split
    all_goals simp [surfacesPersistFailure]
  · unfold StartEditHandler
    repeat' split
    all_goals simp [surfacesPersistFailure]
  · unfold SaveEditHandler
    repeat' split
    all_goals simp [surfacesPersistFailure]
  · unfold DeleteTodoHandler
    repeat' split
    all_goals simp [surfacesPersistFailure]
  · unfold ResetTodosHandler
    repeat' split
    all_goals simp [surfacesPersistFailure]
  · unfold CancelEditHandler
    repeat' split
    all_goals simp [surfacesPersistFailure]
  · unfold SetModeHandler
    repeat' split
    all_goals simp [surfacesPersistFailure]

/-- Closed instance: a toggle whose save fails answers 500 and publishes
nothing. -/
theorem no_publish_on_persist_failure_witness :
    (ToggleTodoHandler true (some 0) okOracle
        { deleteFails := true, insertFails := fun _ => false, upsertFails := false }
        "s" { todos := [⟨"s", "a", 0⟩], sessions := [] }).1.status = 500 ∧
    (ToggleTodoHandler true (some 0) okOracle
        { deleteFails := true, insertFails := fun _ => false, upsertFails := false }
        "s" { todos := [⟨"s", "a", 0⟩], sessions := [] }).1.published = [] :=
  (no_publish_on_persist_failure true (some 0) none none okOracle
    { deleteFails := true, insertFails := fun _ => false, upsertFails := false }
    "s" { todos := [⟨"s", "a", 0⟩], sessions := [] }).1.1 rfl

/-- C7: a malformed index (no parseable integer), a malformed request
body on save-edit, or an out-of-range mode value is rejected with a 400
before the handler touches the store: no load, no save, an unchanged
database, and nothing published. -/
theorem malformed_input_rejected_before_store
    (idxParam : Option Int) (signal : String)
    (oLoad oSave : SaveOracle) (sessionID : String) (db : DB) :
    ToggleTodoHandler true none oLoad oSave sessionID db = (⟨400, 0, 0, none, []⟩, db) ∧
    StartEditHandler true none oLoad oSave sessionID db = (⟨400, 0, 0, none, []⟩, db) ∧
    DeleteTodoHandler true none oLoad oSave sessionID db = (⟨400, 0, 0, none, []⟩, db) ∧
    SaveEditHandler none true idxParam oLoad oSave sessionID db = (⟨400, 0, 0, none, []⟩, db) ∧
    (signal ≠ "" →
      SaveEditHandler (some signal) true none oLoad oSave sessionID db
        = (⟨400, 0, 0, none, []⟩, db)) ∧
    SetModeHandler true none oLoad oSave sessionID db = (⟨400, 0, 0, none, []⟩, db) ∧
    (∀ m : Int, m < TodoViewModeAll ∨ TodoViewModeCompleted < m →
      SetModeHandler true (some m) oLoad oSave sessionID db = (⟨400, 0, 0, none, []⟩, db)) := by
  refine ⟨rfl, rfl, rfl, rfl, ?_, rfl, ?_⟩
  · intro hs
    simp [SaveEditHandler, hs]
  · intro m hm
    simp [SetModeHandler, hm]

/-- Closed instance: a toggle with an unparseable index and a set-mode
with the out-of-range value 5 are both rejected with 400 and leave the
store untouched. -/
theorem malformed_input_rejected_before_store_witness :
    ToggleTodoHandler true none okOracle okOracle "s" { todos := [], sessions := [] }
      = (⟨400, 0, 0, none, []⟩, { todos := [], sessions := [] }) ∧
    SetModeHandler true (some 5) okOracle okOracle "s" { todos := [], sessions := [] }
      = (⟨400, 0, 0, none, []⟩, { todos := [], sessions := [] }) := by
  have h := malformed_input_rejected_before_store none "x" okOracle okOracle "s"
    { todos := [], sessions := [] }
  exact ⟨h.1, h.2.2.2.2.2.2 5 (by decide)⟩

/-- Whether an action is a client push that failed. -/
def pushFailed : StreamAction → Bool
  | .pushView ok => !ok
  | .pushToast ok => !ok
  | _ => false

/-- The claimed mid-stream failure discipline: from the first failed push
onward, the trace performs nothing further at all. -/
def closesOnFirstFailedPush : List StreamAction → Bool
  | [] => true
  | a :: rest => if pushFailed a then rest.isEmpty else closesOnFirstFailedPush rest

/-- C8 counterexample: a toast push fails on the first received event,
yet the loop goes on to process the next event, re-reading state and
pushing again — it does not transition to Closing on that failure. -/
theorem push_failure_counterexample :
    streamLoop
        [⟨true, false, true, true, false⟩, ⟨true, true, false, true, true⟩]
      = [.pushToast false, .readState, .pushView true] ∧
    closesOnFirstFailedPush [.pushToast false, .readState, .pushView true] = false := by
  exact ⟨rfl, rfl⟩

/-- C8 amended: only a failed full-state refresh push closes the stream —
the loop then sends one console-error notification and stops, processing
no further events; a failed toast push is merely logged and the loop
continues with the remaining events. -/
theorem refresh_push_failure_closes (e : StreamEvent) (rest : List StreamEvent) :
    (e.parseOk = true → e.refreshTodos = true → e.refreshPushOk = false →
      streamLoop (e :: rest) = [.readState, .pushView false, .pushConsoleError]) ∧
    (e.parseOk = true → e.refreshTodos = false → e.hasToast = true →
      streamLoop (e :: rest) = .pushToast e.toastPushOk :: streamLoop rest) := by
  constructor
  · intro hp hr hf
    simp [streamLoop, hp, hr, hf]
  · intro hp hr ht
    simp [streamLoop, hp, hr, ht]

/-- Closed instance: a failed refresh push ends the trace with the console
error even though another event was pending, while a failed toast push is
followed by the next event's processing. -/
theorem refresh_push_failure_closes_witness :
    streamLoop [⟨true, true, true, false, true⟩, ⟨true, true, false, true, true⟩]
      = [.readState, .pushView false, .pushConsoleError] ∧
    streamLoop [⟨true, false, true, true, false⟩, ⟨true, true, false, true, true⟩]
      = .pushToast false :: streamLoop [⟨true, true, false, true, true⟩] :=
  ⟨(refresh_push_failure_closes ⟨true, true, true, false, true⟩
      [⟨true, true, false, true, true⟩]).1 rfl rfl rfl,
    (refresh_push_failure_closes ⟨true, false, true, true, false⟩
      [⟨true, true, false, true, true⟩]).2 rfl rfl rfl⟩

/-- C9: for one received event carrying both a refresh request and a
toast, the loop re-reads state and pushes the full view first, pushes the
toast second, and only then processes the rest of the subscription
channel. -/
theorem refresh_before_toast_ordering (e : StreamEvent) (rest : List StreamEvent)
    (hp : e.parseOk = true) (hr : e.refreshTodos = true) (ht : e.hasToast = true)
    (hok : e.refreshPushOk = true) :
    streamLoop (e :: rest)
      = [.readState, .pushView true, .pushToast e.toastPushOk] ++ streamLoop rest := by
  simp [streamLoop, hp, hr, ht, hok]

/-- Closed instance of the per-event push ordering. -/
theorem refresh_before_toast_ordering_witness :
    streamLoop [⟨true, true, true, true, true⟩, ⟨true, true, false, true, true⟩]
      = [.readState, .pushView true, .pushToast true]
          ++ streamLoop [⟨true, true, false, true, true⟩] :=
  refresh_before_toast_ordering ⟨true, true, true, true, true⟩
    [⟨true, true, false, true, true⟩] rfl rfl rfl rfl

end Blueprint
